import Mathlib

/-!
Verification of the core of the `volvocarsapi` client library: the
access-token lifecycle manager (`auth.py`), the request/error
classification layer (`api.py`) and the redaction utility (`util.py`),
embedded shallowly. Python values are modelled by `PyVal`, machine time
by `Int` seconds, fallible code by `Except`, and the `asyncio`
cooperative runtime (for the single-flight refresh property) by an
explicit small-step scheduler over caller phases.
-/

namespace VolvoCars

/-- A Python value as it occurs in JSON-decoded response bodies and
request payloads: `None`, strings, integers, booleans, dicts
(association lists, preserving insertion order) and lists. -/
inductive PyVal where
  | none
  | str (s : String)
  | int (n : Int)
  | bool (b : Bool)
  | dict (entries : List (String × PyVal))
  | list (items : List PyVal)
deriving Repr, Inhabited

/-- A Python dict decoded from JSON: an association list. -/
abbrev PyDict := List (String × PyVal)

/-- Python-level exceptions raised by the embedded code. -/
inductive PyErr where
  | attributeError (attr : String)
  | valueError (msg : String)
  | typeError (msg : String)
  | keyError (key : String)
deriving Repr, DecidableEq

/-- Python truthiness of a `PyVal`: `None`, `""`, `0`, `False`, `{}` and
`[]` are falsy, everything else is truthy. -/
def pyTruthy : PyVal → Bool
  | PyVal.none => false
  | PyVal.str s => !s.isEmpty
  | PyVal.int n => n != 0
  | PyVal.bool b => b
  | PyVal.dict entries => !entries.isEmpty
  | PyVal.list items => !items.isEmpty

/-- Whether a value is Python's `None`. -/
def isNone : PyVal → Bool
  | PyVal.none => true
  | _ => false

/-- Whether a value is the empty string (`isinstance(value, str) and not value`). -/
def isEmptyStr : PyVal → Bool
  | PyVal.str s => s.isEmpty
  | _ => false

/-- The `REDACTED` constant of `util.py`. -/
def REDACTED : String := "**REDACTED**"

mutual

/-- `redact_data` of `util.py`: copies the mapping and rewrites each entry
in order. An entry whose value is `None` or the empty string is skipped
(kept as is); a key listed in `to_redact` is masked; a mapping value is
recursed into; a list value has each of its items passed back through
`redact_data`, which in Python requires each item to be a mapping. -/
def redact_data (data : PyDict) (to_redact : List String) :
    Except PyErr PyDict :=
  match data with
  | [] => Except.ok []
  | (key, value) :: rest => do
      let value' ← redactEntry key value to_redact
      let rest' ← redact_data rest to_redact
      Except.ok ((key, value') :: rest')

/-- One iteration of `redact_data`'s `for key, value in redacted.items()`
loop body. -/
def redactEntry (key : String) (value : PyVal) (to_redact : List String) :
    Except PyErr PyVal :=
  if isNone value then Except.ok value
  else if isEmptyStr value then Except.ok value
  else if key ∈ to_redact then Except.ok (PyVal.str REDACTED)
  else
    match value with
    | PyVal.dict entries => do
        let entries' ← redact_data entries to_redact
        Except.ok (PyVal.dict entries')
    | PyVal.list items => do
        let items' ← redactItems items to_redact
        Except.ok (PyVal.list items')
    | v => Except.ok v

/-- The list comprehension `[redact_data(item, to_redact) for item in value]`. -/
def redactItems (items : List PyVal) (to_redact : List String) :
    Except PyErr (List PyVal) :=
  match items with
  | [] => Except.ok []
  | item :: rest => do
      let item' ← redactItem item to_redact
      let rest' ← redactItems rest to_redact
      Except.ok (item' :: rest')

/-- `redact_data(item, to_redact)` on a single list element: Python's
`{**data}` requires the argument to be a mapping and raises `TypeError`
for any other value. -/
def redactItem (item : PyVal) (to_redact : List String) : Except PyErr PyVal :=
  match item with
  | PyVal.dict entries => do
      let entries' ← redact_data entries to_redact
      Except.ok (PyVal.dict entries')
  | _ => Except.error (PyErr.typeError "argument of type is not a mapping")

end

/-! ## PKCE generator (`auth.py`) -/

/-- The base64url alphabet (RFC 4648 §5), as used by
`base64.urlsafe_b64encode` inside `secrets.token_urlsafe`. -/
def b64urlAlphabet : List Char :=
  "ABCDEFGHIJKLMNOPQRSTUVWXYZabcdefghijklmnopqrstuvwxyz0123456789-_".toList

/-- The base64url digit for a 6-bit group. -/
def b64urlChar (n : Nat) : Char := b64urlAlphabet.getD n 'A'

/-- `base64.urlsafe_b64encode` with the trailing `=` padding stripped, as
`secrets.token_urlsafe` produces it; bytes are modelled as naturals below 256. -/
def base64urlEncode : List Nat → List Char
  | b1 :: b2 :: b3 :: rest =>
      b64urlChar (b1 / 4) :: b64urlChar (b1 % 4 * 16 + b2 / 16) ::
      b64urlChar (b2 % 16 * 4 + b3 / 64) :: b64urlChar (b3 % 64) ::
      base64urlEncode rest
  | [b1, b2] =>
      [b64urlChar (b1 / 4), b64urlChar (b1 % 4 * 16 + b2 / 16), b64urlChar (b2 % 16 * 4)]
  | [b1] => [b64urlChar (b1 / 4), b64urlChar (b1 % 4 * 16)]
  | [] => []

/-- `secrets.token_urlsafe(96)`: base64url-encodes 96 bytes drawn from a
CSPRNG. Randomness is modelled by passing the drawn bytes in explicitly. -/
def token_urlsafe_96 (randomBytes : List Nat) : List Char :=
  base64urlEncode randomBytes

/-- `_generate_code_verifier` of `auth.py`: validates the requested length
and truncates the 128-character `secrets.token_urlsafe(96)` string to it.
The argument is a Python `int`, modelled as `Int`. -/
def _generate_code_verifier (randomBytes : List Nat) (code_verifier_length : Int) :
    Except PyErr String :=
  if 43 ≤ code_verifier_length ∧ code_verifier_length ≤ 128 then
    Except.ok (String.mk ((token_urlsafe_96 randomBytes).take code_verifier_length.toNat))
  else
    Except.error (PyErr.valueError
      ("Parameter `code_verifier_length` must validate"
        ++ "`43 <= code_verifier_length <= 128`."))

/-- A character is URL-safe: unreserved ASCII letters and digits plus the
two base64url punctuation characters `-` and `_`. -/
def isUrlSafeChar (c : Char) : Bool :=
  (65 ≤ c.toNat && c.toNat ≤ 90) || (97 ≤ c.toNat && c.toNat ≤ 122) ||
    (48 ≤ c.toNat && c.toNat ≤ 57) || c == '-' || c == '_'

/-! ## Token model

`models.py` is not among the sources; its data holders are modelled from
the spec (§3, §6). -/

/-- Modelled from the spec: `TokenResponse` of `models.py` (not among the
sources) — `{access_token, refresh_token, expires_in, token_type,
id_token?}` plus the computed absolute `expires_at` (§3, §6 of the spec).
Timestamps are modelled as integer seconds. -/
structure TokenResponse where
  access_token : String
  refresh_token : String
  expires_in : Int
  expires_at : Int
  token_type : String
  id_token : Option String
deriving Repr, DecidableEq

/-- Looks a key up in a dict and returns its value when it is a string. -/
def getStr (d : PyDict) (k : String) : Option String :=
  match d.lookup k with
  | some (PyVal.str s) => some s
  | _ => Option.none

/-- Looks a key up in a dict and returns its value when it is an integer. -/
def getInt (d : PyDict) (k : String) : Option Int :=
  match d.lookup k with
  | some (PyVal.int n) => some n
  | _ => Option.none

/-- Modelled from the spec: `TokenResponse.from_dict` of `models.py` (not
among the sources). Builds a `TokenResponse` from the token-endpoint JSON
augmented with `expires_at` (§6 of the spec); yields `none` when a
required field is missing or has the wrong shape. -/
def TokenResponse.from_dict (d : PyDict) : Option TokenResponse := do
  let access ← getStr d "access_token"
  let refresh ← getStr d "refresh_token"
  let expIn ← getInt d "expires_in"
  let expAt ← getInt d "expires_at"
  let ttype ← getStr d "token_type"
  some { access_token := access, refresh_token := refresh, expires_in := expIn,
         expires_at := expAt, token_type := ttype, id_token := getStr d "id_token" }

/-- Python `int(x)` on the JSON values that can occur in `expires_in`: an
integer stays itself, a decimal string parses, anything else raises. -/
def pyInt : PyVal → Except PyErr Int
  | PyVal.int n => Except.ok n
  | PyVal.str s =>
      match s.toInt? with
      | some n => Except.ok n
      | Option.none => Except.error (PyErr.valueError "invalid literal for int()")
  | _ => Except.error (PyErr.typeError "int() argument")

/-- Sets a key in a dict: replaces the value of an existing key, appends
the pair otherwise (Python `d[k] = v` insertion-order semantics). -/
def dictSet (d : PyDict) (k : String) (v : PyVal) : PyDict :=
  if d.any (fun e => e.1 == k) then
    d.map (fun e => if e.1 == k then (k, v) else e)
  else d ++ [(k, v)]

/-- Pops a key from a dict with default `None`
(Python `d.pop(k, None)`). -/
def dictPop (d : PyDict) (k : String) : PyVal × PyDict :=
  match d.lookup k with
  | some v => (v, d.filter (fun e => e.1 != k))
  | Option.none => (PyVal.none, d)

/-! ## Token Manager (`auth.py`) -/

/-- Modelled from the spec: the two exception classes of `models.py` (not
among the sources) — the error taxonomy of §7 of the spec, carrying a
message and the logical operation name. -/
inductive VolvoExc where
  | volvoAuthException (message : String) (operation : String)
  | volvoApiException (message : String) (operation : String)
deriving Repr, DecidableEq

/-- The two kinds of the error taxonomy. -/
inductive ExcKind where
  | auth
  | api
deriving Repr, DecidableEq

/-- The kind of a raised `VolvoExc`. -/
def excKind : VolvoExc → ExcKind
  | VolvoExc.volvoAuthException _ _ => ExcKind.auth
  | VolvoExc.volvoApiException _ _ => ExcKind.api

/-- An error raised out of the token manager: either one of the two Volvo
exception classes or an uncaught Python-level exception. -/
inductive RaisedErr where
  | volvo (e : VolvoExc)
  | py (e : PyErr)
deriving Repr, DecidableEq

/-- Outcome of one `aiohttp` request at the transport level, assuming the
response body (if any) parsed as JSON: a 2xx response with its body, an
HTTP error status with the transport status message and the parsed error
body, a connection-level `ClientError` carrying its class name, or a
timeout. -/
inductive HttpOutcome where
  | success (body : PyDict)
  | httpError (status : Nat) (msg : String) (body : PyDict)
  | clientError (name : String)
  | timeoutError
deriving Repr, Inhabited

/-- `VolvoCarsAuth._async_request` of `auth.py`: performs the
token-endpoint POST and classifies failures. `response.raise_for_status()`
raises `ClientResponseError`, which is a subclass of `ClientError`, so
every HTTP error status lands in the `except ClientError` arm and is
surfaced as `VolvoAuthException` carrying the exception class name; a
connection-level `ClientError` is surfaced the same way; only
`TimeoutError` is surfaced as `VolvoApiException`. -/
def auth_async_request (outcome : HttpOutcome) (operation : String) :
    Except VolvoExc PyDict :=
  match outcome with
  | HttpOutcome.success body => Except.ok body
  | HttpOutcome.httpError _ _ _ =>
      Except.error (VolvoExc.volvoAuthException "ClientResponseError" operation)
  | HttpOutcome.clientError name =>
      Except.error (VolvoExc.volvoAuthException name operation)
  | HttpOutcome.timeoutError =>
      Except.error (VolvoExc.volvoApiException "TimeoutError" operation)

/-- The `_token` attribute slot of `VolvoCarsAuth`. `__init__` only writes
the bare annotation `self._token: TokenResponse`, which does not create
the attribute, so the slot starts out unset. -/
inductive TokenAttr where
  | unset
  | set (t : TokenResponse)
deriving Repr, DecidableEq

/-- Reading `self._token`: an unset attribute raises `AttributeError`. -/
def readToken : TokenAttr → Except PyErr TokenResponse
  | TokenAttr.unset => Except.error (PyErr.attributeError "_token")
  | TokenAttr.set t => Except.ok t

/-- Python truthiness of a `TokenResponse` object: instances define no
`__bool__`/`__len__`, so they are always truthy. -/
def tokenTruthy (_t : TokenResponse) : Bool := true

/-- `_CLOCK_OUT_OF_SYNC_MAX_SEC` of `auth.py`. -/
def _CLOCK_OUT_OF_SYNC_MAX_SEC : Int := 20

/-- `VolvoCarsAuth.valid_token` of `auth.py`:
`self._token.expires_at > time.time() + _CLOCK_OUT_OF_SYNC_MAX_SEC if
self._token else False`. The conditional evaluates `self._token` first,
so an unset attribute raises `AttributeError`. -/
def valid_token (attr : TokenAttr) (now : Int) : Except PyErr Bool := do
  let t ← readToken attr
  if tokenTruthy t then
    Except.ok (decide (t.expires_at > now + _CLOCK_OUT_OF_SYNC_MAX_SEC))
  else
    Except.ok false

/-- `VolvoCarsAuth._create_token_response` of `auth.py`: coerces
`expires_in` to `int`, stamps `expires_at = time.time() + expires_in`,
builds the `TokenResponse`, and raises
`ValueError("Could not create token response.")` when the build fails.
A missing `expires_in` key raises `KeyError`. -/
def _create_token_response (now : Int) (token : PyDict) :
    Except PyErr TokenResponse := do
  let raw ← match token.lookup "expires_in" with
    | some v => Except.ok v
    | Option.none => Except.error (PyErr.keyError "expires_in")
  let expIn ← pyInt raw
  let token := dictSet token "expires_in" (PyVal.int expIn)
  let token := dictSet token "expires_at" (PyVal.int (now + expIn))
  match TokenResponse.from_dict token with
  | some t => Except.ok t
  | Option.none => Except.error (PyErr.valueError "Could not create token response.")

/-- `VolvoCarsAuth.async_refresh_token` of `auth.py` as a state
transformer: posts the refresh request (whose transport outcome is
`outcome`), then builds the new token and assigns `self._token`. The
assignment is the last step, so on any raised error the stored `_token`
slot is returned untouched. -/
def async_refresh_token (attr : TokenAttr) (now : Int) (outcome : HttpOutcome) :
    Except RaisedErr TokenResponse × TokenAttr :=
  match auth_async_request outcome "token refresh" with
  | Except.error e => (Except.error (RaisedErr.volvo e), attr)
  | Except.ok response =>
      match _create_token_response now response with
      | Except.error e => (Except.error (RaisedErr.py e), attr)
      | Except.ok t => (Except.ok t, TokenAttr.set t)

/-- `VolvoCarsAuth.async_request_token` of `auth.py` (authorization-code
exchange) as a state transformer; identical shape to the refresh, with
operation name `"tokens"`. -/
def async_request_token (attr : TokenAttr) (now : Int) (outcome : HttpOutcome) :
    Except RaisedErr TokenResponse × TokenAttr :=
  match auth_async_request outcome "tokens" with
  | Except.error e => (Except.error (RaisedErr.volvo e), attr)
  | Except.ok response =>
      match _create_token_response now response with
      | Except.error e => (Except.error (RaisedErr.py e), attr)
      | Except.ok t => (Except.ok t, TokenAttr.set t)

/-- `VolvoCarsAuth.async_ensure_token_valid` of `auth.py` for a single
caller (the lock is uncontended): check validity, then the
`if not self._token` guard, then refresh. `outcome` is the transport
outcome of the refresh request, should one be issued. -/
def async_ensure_token_valid (attr : TokenAttr) (now : Int) (outcome : HttpOutcome) :
    Except RaisedErr Unit × TokenAttr :=
  match valid_token attr now with
  | Except.error e => (Except.error (RaisedErr.py e), attr)
  | Except.ok true => (Except.ok (), attr)
  | Except.ok false =>
      match readToken attr with
      | Except.error e => (Except.error (RaisedErr.py e), attr)
      | Except.ok t =>
          if tokenTruthy t then
            match async_refresh_token attr now outcome with
            | (Except.error e, a) => (Except.error e, a)
            | (Except.ok _, a) => (Except.ok (), a)
          else
            (Except.error (RaisedErr.py (PyErr.valueError "No token available.")), attr)

/-- `VolvoCarsAuth.async_get_access_token` of `auth.py` for a single
caller: ensure validity, then return `self._token.access_token`. -/
def auth_get_access_token (attr : TokenAttr) (now : Int) (outcome : HttpOutcome) :
    Except RaisedErr String × TokenAttr :=
  match async_ensure_token_valid attr now outcome with
  | (Except.error e, a) => (Except.error e, a)
  | (Except.ok _, a) =>
      match readToken a with
      | Except.error e => (Except.error (RaisedErr.py e), a)
      | Except.ok t => (Except.ok t.access_token, a)

/-! ## Request/error layer (`api.py`) -/

/-- `_API_URL` of `api.py`. -/
def _API_URL : String := "https://api.volvocars.com"

/-- `_API_CONNECTED_ENDPOINT` of `api.py`. -/
def _API_CONNECTED_ENDPOINT : String := "/connected-vehicle/v2/vehicles"

/-- Whether `needle` occurs as a contiguous substring of the haystack
(Python's `needle in hay` on strings). -/
def containsSub (needle : List Char) : List Char → Bool
  | [] => needle.isPrefixOf []
  | c :: rest => needle.isPrefixOf (c :: rest) || containsSub needle rest

/-- The `"/commands" in url` test of `VolvoCarsApi._async_request`. -/
def urlHasCommands (url : String) : Bool :=
  containsSub "/commands".toList url.toList

/-- `VolvoCarsApi._create_vin_url` of `api.py`, after the instance-default
VIN has been resolved. -/
def _create_vin_url (endpoint operation vin : String) : String :=
  if operation = "" then _API_URL ++ endpoint ++ "/" ++ vin
  else _API_URL ++ endpoint ++ "/" ++ vin ++ "/" ++ operation

/-- Python's whitespace test used by `str.strip()`. -/
def isPyWhitespace (c : Char) : Bool :=
  c == ' ' || c == '\t' || c == '\n' || c == '\r' || c == '\x0b' || c == '\x0c'

/-- Python `str.strip()`: removes leading and trailing whitespace. -/
def pyStrip (s : String) : String :=
  String.mk (((s.toList.dropWhile isPyWhitespace).reverse.dropWhile isPyWhitespace).reverse)

/-- Modelled from the spec: `VolvoCarsErrorResult` of `models.py` (not
among the sources) — the structured error body carrying `message` and
`description` (§4.3 of the spec). -/
structure VolvoCarsErrorResult where
  message : String
  description : String
deriving Repr, DecidableEq

/-- Modelled from the spec: `VolvoCarsErrorResult.from_dict` of
`models.py` (not among the sources). Per §4.3 of the spec a structured
error body carries `error.message`/`error.description`; the parse
succeeds exactly when the value is a mapping with both string fields. -/
def VolvoCarsErrorResult.from_dict (v : PyVal) : Option VolvoCarsErrorResult :=
  match v with
  | PyVal.dict d => do
      let m ← getStr d "message"
      let desc ← getStr d "description"
      some { message := m, description := desc }
  | _ => Option.none

/-- The body synthesized by `VolvoCarsApi._async_request` for an HTTP 422
on a command-invocation URL. -/
def synthetic422Body (vin : String) : PyDict :=
  [("data", PyVal.dict
    [("vin", PyVal.str vin),
     ("invokeStatus", PyVal.str "UNKNOWN"),
     ("message", PyVal.str "")])]

/-- `VolvoCarsApi._async_request` of `api.py`: the response-handling stage,
after the access token has been obtained. `response.json()` runs before
`raise_for_status()`, so the parsed body is available when an HTTP error
is classified. A 404 returns an empty dict; a 422 on a command URL
returns the synthetic body; otherwise the surfaced message is built from
the structured error body when one is present (with the transport status
message as fallback, as `RedactedClientResponseError` preserves
`ex.message`), and the status decides the exception class. -/
def api_async_request (url : String) (operation : String) (vin : String)
    (outcome : HttpOutcome) : Except VolvoExc PyDict :=
  match outcome with
  | HttpOutcome.success body => Except.ok body
  | HttpOutcome.httpError status msg body =>
      if status = 404 then Except.ok []
      else if status = 422 && urlHasCommands url then
        Except.ok (synthetic422Body vin)
      else
        let message :=
          if !body.isEmpty then
            match body.lookup "error" with
            | some errVal =>
                if pyTruthy errVal then
                  match VolvoCarsErrorResult.from_dict errVal with
                  | some err => pyStrip (err.message ++ " " ++ err.description)
                  | Option.none => msg
                else msg
            | Option.none => msg
          else msg
        if status = 401 || status = 403 then
          Except.error (VolvoExc.volvoAuthException message operation)
        else
          Except.error (VolvoExc.volvoApiException message operation)
  | HttpOutcome.clientError name =>
      Except.error (VolvoExc.volvoApiException name operation)
  | HttpOutcome.timeoutError =>
      Except.error (VolvoExc.volvoApiException "TimeoutError" operation)

/-- What `self._token_manager.async_get_access_token()` can do, as seen by
`VolvoCarsApi.async_get_access_token`: return a token string, raise a raw
`aiohttp` error (possible for token managers other than `VolvoCarsAuth`),
or raise one of the two Volvo exceptions. -/
inductive ManagerOutcome where
  | token (t : String)
  | clientResponseError (status : Nat) (msg : String)
  | clientError (name : String)
  | timeoutError
  | volvoExc (e : VolvoExc)
deriving Repr, DecidableEq

/-- `VolvoCarsApi.async_get_access_token` of `api.py`: re-classifies raw
`aiohttp` errors escaping the token manager — `ClientResponseError` with
status 400/401/403 becomes `VolvoAuthException`, any other status
`VolvoApiException`, and other `ClientError`/`TimeoutError` become
`VolvoApiException`. The Volvo exceptions raised by the concrete
`VolvoCarsAuth` are not `aiohttp` errors and propagate unchanged. -/
def api_get_access_token (m : ManagerOutcome) : Except VolvoExc String :=
  match m with
  | ManagerOutcome.token t => Except.ok t
  | ManagerOutcome.clientResponseError status msg =>
      if status = 400 || status = 401 || status = 403 then
        Except.error (VolvoExc.volvoAuthException msg "token refresh")
      else
        Except.error (VolvoExc.volvoApiException msg "token refresh")
  | ManagerOutcome.clientError name =>
      Except.error (VolvoExc.volvoApiException name "token refresh")
  | ManagerOutcome.timeoutError =>
      Except.error (VolvoExc.volvoApiException "TimeoutError" "token refresh")
  | ManagerOutcome.volvoExc e => Except.error e

/-- Modelled from the spec: `VolvoCarsCommandResult` of `models.py` (not
among the sources) — a command invocation result carrying the vehicle id,
the invoke status and a message (§4.3 and §8 of the spec). -/
structure VolvoCarsCommandResult where
  vin : String
  invoke_status : Option String
  message : String
deriving Repr, DecidableEq

/-- Modelled from the spec: `VolvoCarsCommandResult.from_dict` of
`models.py` (not among the sources); succeeds when `vin` and `message`
are string fields, with `invoke_status` optional. -/
def VolvoCarsCommandResult.from_dict (d : PyDict) : Option VolvoCarsCommandResult := do
  let v ← getStr d "vin"
  let m ← getStr d "message"
  some { vin := v, invoke_status := getStr d "invoke_status", message := m }

/-- `body.get("data", {})` followed by `data.pop`: the value under `"data"`
must be a mapping for the subsequent `pop` to work; a missing key yields
the empty dict. -/
def getDictDefault (body : PyDict) (k : String) : Except PyErr PyDict :=
  match body.lookup k with
  | some (PyVal.dict d) => Except.ok d
  | some _ => Except.error (PyErr.attributeError "pop")
  | Option.none => Except.ok []

/-- `VolvoCarsApi.async_execute_command` of `api.py`: posts
`commands/{command}` and maps the returned body onto a
`VolvoCarsCommandResult`, renaming `invokeStatus` to `invoke_status`. -/
def async_execute_command (command : String) (vin : String) (outcome : HttpOutcome) :
    Except RaisedErr (Option VolvoCarsCommandResult) :=
  match api_async_request
      (_create_vin_url _API_CONNECTED_ENDPOINT ("commands/" ++ command) vin)
      ("commands/" ++ command) vin outcome with
  | Except.error e => Except.error (RaisedErr.volvo e)
  | Except.ok body =>
      match getDictDefault body "data" with
      | Except.error e => Except.error (RaisedErr.py e)
      | Except.ok data =>
          let pv := dictPop data "invokeStatus"
          let data := dictSet pv.2 "invoke_status" pv.1
          Except.ok (VolvoCarsCommandResult.from_dict data)

/-! ## Cooperative-concurrency model of the single-flight refresh

`asyncio` interleaves tasks only at `await` points. A caller of
`async_get_access_token` suspends (at most) twice inside
`async_ensure_token_valid`: acquiring `self._token_lock` and awaiting the
refresh HTTP request. Everything between two suspension points runs
atomically, so each caller is a small state machine and a schedule is a
list of task indices choosing which runnable task advances next. -/

/-- One caller of `async_get_access_token`, advancing through
`async_ensure_token_valid`'s critical section. -/
inductive TaskPhase where
  | ready
  | hasLock
  | refreshing (reqIdx : Nat)
  | done (result : Except RaisedErr String)
deriving Repr

/-- The shared state of one `VolvoCarsAuth` instance together with the
phases of its concurrent callers. `requests` counts the refresh requests
issued to the provider so far. -/
structure SysState where
  attr : TokenAttr
  lockHeld : Bool
  tasks : List TaskPhase
  requests : Nat
deriving Repr

/-- Advance task `i` by one atomic slice, if it is runnable. `provider`
gives the transport outcome of the `n`-th refresh request issued.
A `ready` task acquires the free lock (a held lock keeps it suspended);
a task holding the lock runs the validity check and either returns, hits
the dead `No token available.` guard, or issues the refresh request and
suspends; a `refreshing` task receives the provider's reply, stores the
token, releases the lock, and reads `self._token.access_token` — all
without suspending again. -/
def stepTask (provider : Nat → HttpOutcome) (now : Int) (s : SysState) (i : Nat) :
    SysState :=
  match s.tasks.get? i with
  | Option.none => s
  | some phase =>
    match phase with
    | TaskPhase.ready =>
        if s.lockHeld then s
        else { s with lockHeld := true, tasks := s.tasks.set i TaskPhase.hasLock }
    | TaskPhase.hasLock =>
        match valid_token s.attr now with
        | Except.error e =>
            { s with lockHeld := false,
                     tasks := s.tasks.set i (TaskPhase.done (Except.error (RaisedErr.py e))) }
        | Except.ok true =>
            let result := match readToken s.attr with
              | Except.ok t => Except.ok t.access_token
              | Except.error e => Except.error (RaisedErr.py e)
            { s with lockHeld := false, tasks := s.tasks.set i (TaskPhase.done result) }
        | Except.ok false =>
            match readToken s.attr with
            | Except.error e =>
                { s with lockHeld := false,
                         tasks := s.tasks.set i (TaskPhase.done (Except.error (RaisedErr.py e))) }
            | Except.ok t =>
                if tokenTruthy t then
                  { s with requests := s.requests + 1,
                           tasks := s.tasks.set i (TaskPhase.refreshing s.requests) }
                else
                  { s with lockHeld := false,
                           tasks := s.tasks.set i (TaskPhase.done (Except.error
                             (RaisedErr.py (PyErr.valueError "No token available.")))) }
    | TaskPhase.refreshing idx =>
        match auth_async_request (provider idx) "token refresh" with
        | Except.error e =>
            { s with lockHeld := false,
                     tasks := s.tasks.set i (TaskPhase.done (Except.error (RaisedErr.volvo e))) }
        | Except.ok body =>
            match _create_token_response now body with
            | Except.error e =>
                { s with lockHeld := false,
                         tasks := s.tasks.set i (TaskPhase.done (Except.error (RaisedErr.py e))) }
            | Except.ok t =>
                { s with attr := TokenAttr.set t, lockHeld := false,
                         tasks := s.tasks.set i (TaskPhase.done (Except.ok t.access_token)) }
    | TaskPhase.done _ => s

/-- Run a schedule: fold the chosen task indices over the state. -/
def runSched (provider : Nat → HttpOutcome) (now : Int) (s₀ : SysState)
    (sched : List Nat) : SysState :=
  sched.foldl (stepTask provider now) s₀

/-- `n` concurrent callers of `async_get_access_token` against one manager
currently holding token `t₀`, lock free, no request issued yet. -/
def initState (t₀ : TokenResponse) (n : Nat) : SysState :=
  { attr := TokenAttr.set t₀, lockHeld := false,
    tasks := List.replicate n TaskPhase.ready, requests := 0 }

/-- A task phase that holds the manager's lock. -/
def holdsLock : TaskPhase → Bool
  | TaskPhase.hasLock => true
  | TaskPhase.refreshing _ => true
  | _ => false

/-- A finished task. -/
def isDone : TaskPhase → Bool
  | TaskPhase.done _ => true
  | _ => false

/-! ## Concrete fixtures -/

/-- A concrete token whose `expires_at` lies 5 seconds after the sample
current time `1000`. -/
def sampleToken : TokenResponse :=
  { access_token := "tok1", refresh_token := "ref1", expires_in := 3600,
    expires_at := 1005, token_type := "Bearer", id_token := Option.none }

/-- The token-operation failure classification exactly as §4.2 of the spec
states it: HTTP 400/401/403 are authentication failures, every other HTTP
status and every transport-level failure is a transient API failure; no
failure on success. -/
def specTokenFailureKind : HttpOutcome → Option ExcKind
  | HttpOutcome.success _ => Option.none
  | HttpOutcome.httpError status _ _ =>
      if status = 400 ∨ status = 401 ∨ status = 403 then some ExcKind.auth
      else some ExcKind.api
  | HttpOutcome.clientError _ => some ExcKind.api
  | HttpOutcome.timeoutError => some ExcKind.api

/-! ## Claims -/

/-- C8: for a manager holding a token, `valid_token` is true exactly when
`expires_at` is strictly greater than the current time plus the constant
20-second clock-skew margin; a token expiring 5 seconds from now is
invalid, one expiring 3600 seconds from now is valid. -/
theorem valid_token_strict_skew_margin :
    (∀ t now, valid_token (TokenAttr.set t) now
        = Except.ok (decide (t.expires_at > now + 20)))
  ∧ valid_token (TokenAttr.set sampleToken) 1000 = Except.ok false
  ∧ valid_token (TokenAttr.set { sampleToken with expires_at := 1000 + 3600 }) 1000
      = Except.ok true := by
  exact ⟨fun t now => rfl, rfl, rfl⟩

/-- C3: the code observed at the failing input. On a manager on which no
token has ever been issued, `async_ensure_token_valid` raises
`AttributeError` for the unset `_token` attribute (read inside
`valid_token`) instead of the intended `ValueError("No token
available.")`, whose guard is unreachable. -/
theorem ensure_token_valid_unset_attribute_error :
    ∀ now outcome,
      async_ensure_token_valid TokenAttr.unset now outcome
        = (Except.error (RaisedErr.py (PyErr.attributeError "_token")), TokenAttr.unset)
      ∧ ∀ m, (async_ensure_token_valid TokenAttr.unset now outcome).1
          ≠ Except.error (RaisedErr.py (PyErr.valueError m)) := by
  intro now outcome
  refine ⟨rfl, fun m h => ?_⟩
  have h0 : (async_ensure_token_valid TokenAttr.unset now outcome).1
      = Except.error (RaisedErr.py (PyErr.attributeError "_token")) := rfl
  rw [h0] at h
  simp at h

/-- C4: a refresh or code-exchange either stores exactly the token built
from the one provider response it received and returns it, or raises and
leaves the previously stored `_token` slot unchanged. -/
theorem token_replacement_atomic :
    ∀ attr now outcome,
      (match async_refresh_token attr now outcome with
       | (Except.ok t, attr') =>
          attr' = TokenAttr.set t ∧
          ∃ body, auth_async_request outcome "token refresh" = Except.ok body ∧
            _create_token_response now body = Except.ok t
       | (Except.error _, attr') => attr' = attr)
      ∧
      (match async_request_token attr now outcome with
       | (Except.ok t, attr') =>
          attr' = TokenAttr.set t ∧
          ∃ body, auth_async_request outcome "tokens" = Except.ok body ∧
            _create_token_response now body = Except.ok t
       | (Except.error _, attr') => attr' = attr) := by
  intro attr now outcome
  constructor
  · split
    case _ t attr' heq =>
      cases hreq : auth_async_request outcome "token refresh" with
      | error e =>
          have hval : async_refresh_token attr now outcome = (Except.error (RaisedErr.volvo e), attr) := by
            simp [async_refresh_token, hreq]
          rw [hval] at heq
          injection heq with h1 h2
          cases h1
      | ok body =>
          cases hct : _create_token_response now body with
          | error e =>
              have hval : async_refresh_token attr now outcome = (Except.error (RaisedErr.py e), attr) := by
                simp [async_refresh_token, hreq, hct]
              rw [hval] at heq
              injection heq with h1 h2
              cases h1
          | ok t' =>
              have hval : async_refresh_token attr now outcome = (Except.ok t', TokenAttr.set t') := by
                simp [async_refresh_token, hreq, hct]
              rw [hval] at heq
              injection heq with h1 h2
              injection h1 with h3
              subst h3
              exact ⟨h2.symm, body, rfl, hct⟩
    case _ e attr' heq =>
      cases hreq : auth_async_request outcome "token refresh" with
      | error e2 =>
          have hval : async_refresh_token attr now outcome = (Except.error (RaisedErr.volvo e2), attr) := by
            simp [async_refresh_token, hreq]
          rw [hval] at heq
          injection heq with h1 h2
          exact h2.symm
      | ok body =>
          cases hct : _create_token_response now body with
          | error e2 =>
              have hval : async_refresh_token attr now outcome = (Except.error (RaisedErr.py e2), attr) := by
                simp [async_refresh_token, hreq, hct]
              rw [hval] at heq
              injection heq with h1 h2
              exact h2.symm
          | ok t' =>
              have hval : async_refresh_token attr now outcome = (Except.ok t', TokenAttr.set t') := by
                simp [async_refresh_token, hreq, hct]
              rw [hval] at heq
              injection heq with h1 h2
              cases h1
  · split
    case _ t attr' heq =>
      cases hreq : auth_async_request outcome "tokens" with
      | error e =>
          have hval : async_request_token attr now outcome = (Except.error (RaisedErr.volvo e), attr) := by
            simp [async_request_token, hreq]
          rw [hval] at heq
          injection heq with h1 h2
          cases h1
      | ok body =>
          cases hct : _create_token_response now body with
          | error e =>
              have hval : async_request_token attr now outcome = (Except.error (RaisedErr.py e), attr) := by
                simp [async_request_token, hreq, hct]
              rw [hval] at heq
              injection heq with h1 h2
              cases h1
          | ok t' =>
              have hval : async_request_token attr now outcome = (Except.ok t', TokenAttr.set t') := by
                simp [async_request_token, hreq, hct]
              rw [hval] at heq
              injection heq with h1 h2
              injection h1 with h3
              subst h3
              exact ⟨h2.symm, body, rfl, hct⟩
    case _ e attr' heq =>
      cases hreq : auth_async_request outcome "tokens" with
      | error e2 =>
          have hval : async_request_token attr now outcome = (Except.error (RaisedErr.volvo e2), attr) := by
            simp [async_request_token, hreq]
          rw [hval] at heq
          injection heq with h1 h2
          exact h2.symm
      | ok body =>
          cases hct : _create_token_response now body with
          | error e2 =>
              have hval : async_request_token attr now outcome = (Except.error (RaisedErr.py e2), attr) := by
                simp [async_request_token, hreq, hct]
              rw [hval] at heq
              injection heq with h1 h2
              exact h2.symm
          | ok t' =>
              have hval : async_request_token attr now outcome = (Except.ok t', TokenAttr.set t') := by
                simp [async_request_token, hreq, hct]
              rw [hval] at heq
              injection heq with h1 h2
              cases h1

/-- C1 counterexample: an HTTP 500 from the provider during a token
refresh is surfaced as `VolvoAuthException` — `raise_for_status()` raises
`ClientResponseError`, a subclass of `ClientError`, and `auth.py`'s
`except ClientError` arm wraps it in `VolvoAuthException` — whereas the
claim classifies every HTTP status other than 400/401/403 as a transient
`VolvoApiException`. -/
theorem token_refresh_500_misclassified :
    (async_refresh_token (TokenAttr.set sampleToken) 1000
        (HttpOutcome.httpError 500 "Internal Server Error" [])).1
      = Except.error (RaisedErr.volvo
          (VolvoExc.volvoAuthException "ClientResponseError" "token refresh"))
    ∧ specTokenFailureKind (HttpOutcome.httpError 500 "Internal Server Error" [])
      = some ExcKind.api := by
  exact ⟨rfl, by decide⟩

/-- C1 amended: during the token manager's own operations every HTTP error
status and every connection-level `ClientError` is surfaced as
`VolvoAuthException` (carrying the exception class name) and only a
timeout as `VolvoApiException`; the spec's 400/401/403-versus-rest split
is applied only by `VolvoCarsApi.async_get_access_token` to raw `aiohttp`
errors escaping an abstract token manager. -/
theorem token_failure_classification :
    (∀ attr now status msg body,
      (async_refresh_token attr now (HttpOutcome.httpError status msg body)).1
        = Except.error (RaisedErr.volvo
            (VolvoExc.volvoAuthException "ClientResponseError" "token refresh")))
  ∧ (∀ attr now name,
      (async_refresh_token attr now (HttpOutcome.clientError name)).1
        = Except.error (RaisedErr.volvo (VolvoExc.volvoAuthException name "token refresh")))
  ∧ (∀ attr now,
      (async_refresh_token attr now HttpOutcome.timeoutError).1
        = Except.error (RaisedErr.volvo (VolvoExc.volvoApiException "TimeoutError" "token refresh")))
  ∧ (∀ attr now status msg body,
      (async_request_token attr now (HttpOutcome.httpError status msg body)).1
        = Except.error (RaisedErr.volvo
            (VolvoExc.volvoAuthException "ClientResponseError" "tokens")))
  ∧ (∀ status msg,
      api_get_access_token (ManagerOutcome.clientResponseError status msg)
        = Except.error (if status = 400 ∨ status = 401 ∨ status = 403
            then VolvoExc.volvoAuthException msg "token refresh"
            else VolvoExc.volvoApiException msg "token refresh"))
  ∧ (∀ name, api_get_access_token (ManagerOutcome.clientError name)
        = Except.error (VolvoExc.volvoApiException name "token refresh"))
  ∧ (api_get_access_token ManagerOutcome.timeoutError
        = Except.error (VolvoExc.volvoApiException "TimeoutError" "token refresh"))
  ∧ (∀ e, api_get_access_token (ManagerOutcome.volvoExc e) = Except.error e) := by
  refine ⟨fun attr now status msg body => rfl, fun attr now name => rfl,
          fun attr now => rfl, fun attr now status msg body => rfl,
          fun status msg => ?_, fun name => rfl, rfl, fun e => rfl⟩
  by_cases h4 : status = 400
  · simp [api_get_access_token, h4]
  · by_cases h1 : status = 401
    · simp [api_get_access_token, h4, h1]
    · by_cases h3 : status = 403
      · simp [api_get_access_token, h4, h1, h3]
      · simp [api_get_access_token, h4, h1, h3]

/-- C5: an HTTP 404 on any resource request yields the empty structure,
not an error, regardless of URL and operation. -/
theorem http404_returns_empty :
    ∀ url operation vin msg body,
      api_async_request url operation vin (HttpOutcome.httpError 404 msg body)
        = Except.ok [] := by
  intro url operation vin msg body
  simp [api_async_request]

/-! ### Substring facts for the command-URL test -/

/-- A list is a `isPrefixOf`-prefix of itself followed by anything. -/
theorem isPrefixOf_append_self (l t : List Char) : l.isPrefixOf (l ++ t) = true := by
  induction l with
  | nil => simp [List.isPrefixOf]
  | cons c cs ih => simp [List.isPrefixOf, ih]

/-- `containsSub` holds when the needle is a prefix of the haystack. -/
theorem containsSub_of_isPrefixOf (needle hay : List Char)
    (h : needle.isPrefixOf hay = true) : containsSub needle hay = true := by
  cases hay with
  | nil => simpa [containsSub] using h
  | cons c rest => simp [containsSub, h]

/-- `containsSub` survives prepending to the haystack. -/
theorem containsSub_append_left (needle pre rest : List Char)
    (h : containsSub needle rest = true) : containsSub needle (pre ++ rest) = true := by
  induction pre with
  | nil => simpa using h
  | cons c cs ih => simp [containsSub, ih]

/-- The URL built for `commands/{command}` passes the `"/commands" in url`
test. -/
theorem urlHasCommands_command_url (vin command : String) :
    urlHasCommands
      (_create_vin_url _API_CONNECTED_ENDPOINT ("commands/" ++ command) vin) = true := by
  have hne : ¬("commands/" ++ command) = "" := by
    intro h
    have h2 := congrArg String.data h
    rw [String.data_append] at h2
    simp at h2
  unfold _create_vin_url
  rw [if_neg hne]
  unfold urlHasCommands
  have hsplit :
      (_API_URL ++ _API_CONNECTED_ENDPOINT ++ "/" ++ vin ++ "/"
          ++ ("commands/" ++ command)).toList
        = (_API_URL ++ _API_CONNECTED_ENDPOINT ++ "/" ++ vin).toList
            ++ ("/commands".toList ++ ('/' :: command.toList)) := by
    show (_API_URL ++ _API_CONNECTED_ENDPOINT ++ "/" ++ vin ++ "/"
          ++ ("commands/" ++ command)).data
        = (_API_URL ++ _API_CONNECTED_ENDPOINT ++ "/" ++ vin).data
            ++ ("/commands".data ++ ('/' :: command.data))
    simp only [String.data_append, List.append_assoc]
    refine congrArg (fun l => _API_URL.data ++ l) ?_
    refine congrArg (fun l => _API_CONNECTED_ENDPOINT.data ++ l) ?_
    refine congrArg (fun l => "/".data ++ l) ?_
    refine congrArg (fun l => vin.data ++ l) ?_
    rfl
  rw [hsplit]
  exact containsSub_append_left _ _ _
    (containsSub_of_isPrefixOf _ _ (isPrefixOf_append_self _ _))

/-- An HTTP 422 on a URL passing the command test is synthesized into the
soft-success body. -/
theorem api_async_request_422 (url operation vin msg : String) (body : PyDict)
    (h : urlHasCommands url = true) :
    api_async_request url operation vin (HttpOutcome.httpError 422 msg body)
      = Except.ok (synthetic422Body vin) := by
  simp [api_async_request, h]

/-- C6: an HTTP 422 response on a command-invocation URL is synthesized
into a successful-shaped result — through `async_execute_command` a
`VolvoCarsCommandResult` with `invoke_status = "UNKNOWN"` and empty
message — and this synthesis happens exactly for status 422 on a URL
containing `"/commands"`, never for another status or URL. -/
theorem command_422_soft_success :
    (∀ url operation vin msg body, urlHasCommands url = true →
      api_async_request url operation vin (HttpOutcome.httpError 422 msg body)
        = Except.ok (synthetic422Body vin))
  ∧ (∀ command vin msg body,
      async_execute_command command vin (HttpOutcome.httpError 422 msg body)
        = Except.ok (some { vin := vin, invoke_status := some "UNKNOWN", message := "" }))
  ∧ (∀ url operation vin status msg body,
      api_async_request url operation vin (HttpOutcome.httpError status msg body)
        = Except.ok (synthetic422Body vin) →
      status = 422 ∧ urlHasCommands url = true) := by
  refine ⟨fun url operation vin msg body h => api_async_request_422 url operation vin msg body h,
          fun command vin msg body => ?_, fun url operation vin status msg body h => ?_⟩
  · unfold async_execute_command
    rw [api_async_request_422 _ _ _ _ _ (urlHasCommands_command_url vin command)]
    rfl
  · by_cases h404 : status = 404
    · subst h404
      rw [http404_returns_empty url operation vin msg body] at h
      simp [synthetic422Body] at h
    · by_cases hc : status = 422 ∧ urlHasCommands url = true
      · exact hc
      · exfalso
        have hbool : (decide (status = 422) && urlHasCommands url) = false := by
          by_cases h1 : status = 422
          · subst h1
            cases h2 : urlHasCommands url with
            | true => exact absurd ⟨rfl, h2⟩ hc
            | false => simp [h2]
          · simp [h1]
        simp only [api_async_request] at h
        rw [if_neg h404, hbool] at h
        simp only [Bool.false_eq_true, if_false] at h
        split at h <;> simp at h

/-! ### Surfaced error messages -/

/-- The surfaced error text exactly as §4.3 of the spec states it:
`error.message` and `error.description` concatenated (message first) and
whitespace-trimmed when the body holds a structured error record, the
transport-provided status message otherwise. -/
def specSurfacedMessage (body : PyDict) (transportMsg : String) : String :=
  match body.lookup "error" with
  | some v =>
      match VolvoCarsErrorResult.from_dict v with
      | some err => pyStrip (err.message ++ " " ++ err.description)
      | Option.none => transportMsg
  | Option.none => transportMsg

/-- A value that parses as a structured error record is truthy. -/
theorem pyTruthy_of_from_dict (v : PyVal) (err : VolvoCarsErrorResult)
    (h : VolvoCarsErrorResult.from_dict v = some err) : pyTruthy v = true := by
  cases v with
  | none => simp [VolvoCarsErrorResult.from_dict] at h
  | str s => simp [VolvoCarsErrorResult.from_dict] at h
  | int n => simp [VolvoCarsErrorResult.from_dict] at h
  | bool b => simp [VolvoCarsErrorResult.from_dict] at h
  | list items => simp [VolvoCarsErrorResult.from_dict] at h
  | dict d =>
      cases d with
      | nil =>
          simp [VolvoCarsErrorResult.from_dict, getStr, Bind.bind, Option.bind] at h
      | cons e rest => simp [pyTruthy]

/-- The message computed inside `VolvoCarsApi._async_request` (guarded by
the Python truthiness of `data` and `data.get("error")`) agrees with the
spec's rule. -/
theorem surfaced_message_agrees (body : PyDict) (msg : String) :
    (if !body.isEmpty then
        match body.lookup "error" with
        | some errVal =>
            if pyTruthy errVal then
              match VolvoCarsErrorResult.from_dict errVal with
              | some err => pyStrip (err.message ++ " " ++ err.description)
              | Option.none => msg
            else msg
        | Option.none => msg
      else msg) = specSurfacedMessage body msg := by
  cases body with
  | nil => simp [specSurfacedMessage]
  | cons hd tl =>
      simp only [List.isEmpty_cons, Bool.not_false, if_true]
      cases hlk : (hd :: tl).lookup "error" with
      | none => simp [specSurfacedMessage, hlk]
      | some v =>
          simp only [specSurfacedMessage, hlk]
          cases hfd : VolvoCarsErrorResult.from_dict v with
          | none => cases hpt : pyTruthy v <;> simp [hfd, hpt]
          | some err => simp [hfd, pyTruthy_of_from_dict v err hfd]

/-- C7: on a resource request, HTTP 401/403 raise `VolvoAuthException` and
every other HTTP error status — apart from the 404 and 422-on-command
soft successes — raises `VolvoApiException`; in both cases the surfaced
message is `error.message` and `error.description` concatenated and
trimmed when the body carries a structured error record, and the
transport-provided status message otherwise. -/
theorem resource_error_classification :
    ∀ url operation vin status msg body,
      status ≠ 404 →
      ¬(status = 422 ∧ urlHasCommands url = true) →
      api_async_request url operation vin (HttpOutcome.httpError status msg body)
        = (if status = 401 ∨ status = 403
           then Except.error
             (VolvoExc.volvoAuthException (specSurfacedMessage body msg) operation)
           else Except.error
             (VolvoExc.volvoApiException (specSurfacedMessage body msg) operation)) := by
  intro url operation vin status msg body h404 hc
  have hbool : (decide (status = 422) && urlHasCommands url) = false := by
    by_cases h1 : status = 422
    · subst h1
      cases h2 : urlHasCommands url with
      | true => exact absurd ⟨rfl, h2⟩ hc
      | false => simp [h2]
    · simp [h1]
  by_cases h401 : status = 401
  · subst h401
    simp [api_async_request, surfaced_message_agrees]
  · by_cases h403 : status = 403
    · subst h403
      simp [api_async_request, surfaced_message_agrees]
    · simp only [api_async_request]
      rw [if_neg h404, hbool]
      simp only [Bool.false_eq_true, if_false]
      rw [surfaced_message_agrees]
      simp [h401, h403]

/-- Witness for C7 at concrete inputs: an HTTP 500 with a structured error
body surfaces `VolvoApiException` with the concatenated, trimmed text. -/
theorem resource_error_classification_witness :
    ((500 : Nat) ≠ 404
      ∧ ¬((500 : Nat) = 422 ∧ urlHasCommands "https://api.volvocars.com/x" = true))
    ∧ api_async_request "https://api.volvocars.com/x" "odometer" "V"
        (HttpOutcome.httpError 500 "Internal Server Error"
          [("error", PyVal.dict
            [("message", PyVal.str "Oops"), ("description", PyVal.str "broken")])])
      = Except.error (VolvoExc.volvoApiException "Oops broken" "odometer") := by
  refine ⟨⟨by decide, ?_⟩, ?_⟩
  · intro hcontra
    exact absurd hcontra.1 (by decide)
  · rw [resource_error_classification "https://api.volvocars.com/x" "odometer" "V"
        500 "Internal Server Error" _ (by decide) (fun hcontra => absurd hcontra.1 (by decide))]
    rfl

/-! ### PKCE code-verifier facts -/

/-- Every base64url digit is a URL-safe character. -/
theorem b64urlChar_urlsafe (n : Nat) : isUrlSafeChar (b64urlChar n) = true := by
  have halpha : ∀ c ∈ b64urlAlphabet, isUrlSafeChar c = true := by decide
  unfold b64urlChar
  have hgd : b64urlAlphabet.getD n 'A' = (b64urlAlphabet.get? n).getD 'A' := by
    simp [List.getD]
  rw [hgd]
  cases hg : b64urlAlphabet.get? n with
  | none => simp only [Option.getD_none]; decide
  | some c =>
      simp only [Option.getD_some]
      exact halpha c (List.get?_mem hg)

/-- Every character emitted by the base64url encoder is URL-safe. -/
theorem base64urlEncode_urlsafe (bytes : List Nat) :
    ∀ c ∈ base64urlEncode bytes, isUrlSafeChar c = true := by
  generalize hn : bytes.length = n
  induction n using Nat.strong_induction_on generalizing bytes with
  | _ n ih =>
    match bytes with
    | [] => intro c hc; simp [base64urlEncode] at hc
    | [b1] =>
        intro c hc
        simp only [base64urlEncode, List.mem_cons, List.not_mem_nil, or_false] at hc
        rcases hc with rfl | rfl
        · exact b64urlChar_urlsafe _
        · exact b64urlChar_urlsafe _
    | [b1, b2] =>
        intro c hc
        simp only [base64urlEncode, List.mem_cons, List.not_mem_nil, or_false] at hc
        rcases hc with rfl | rfl | rfl
        · exact b64urlChar_urlsafe _
        · exact b64urlChar_urlsafe _
        · exact b64urlChar_urlsafe _
    | b1 :: b2 :: b3 :: rest =>
        intro c hc
        simp only [base64urlEncode, List.mem_cons] at hc
        rcases hc with rfl | rfl | rfl | rfl | hc
        · exact b64urlChar_urlsafe _
        · exact b64urlChar_urlsafe _
        · exact b64urlChar_urlsafe _
        · exact b64urlChar_urlsafe _
        · exact ih rest.length (by subst hn; simp; omega) rest rfl c hc

/-- The encoder turns `3 * n` bytes into `4 * n` characters. -/
theorem base64urlEncode_length_of_three (n : Nat) :
    ∀ bytes : List Nat, bytes.length = 3 * n →
      (base64urlEncode bytes).length = 4 * n := by
  induction n with
  | zero =>
      intro bytes h
      have hnil : bytes = [] := List.eq_nil_of_length_eq_zero (by omega)
      subst hnil
      simp [base64urlEncode]
  | succ k ih =>
      intro bytes h
      match bytes with
      | [] => simp only [List.length_nil] at h; omega
      | [b1] => simp only [List.length_cons, List.length_nil] at h; omega
      | [b1, b2] => simp only [List.length_cons, List.length_nil] at h; omega
      | b1 :: b2 :: b3 :: rest =>
          have hrest : rest.length = 3 * k := by simp at h; omega
          simp only [base64urlEncode, List.length_cons, ih rest hrest]
          omega

/-- C9: for every requested length in `[43, 128]` the generated code
verifier is a string of exactly that many characters, all URL-safe; for
every length outside `[43, 128]` the generator raises `ValueError`
(`InvalidParameter`). `randomBytes` are the 96 bytes drawn by
`secrets.token_urlsafe(96)`. -/
theorem generate_code_verifier_spec :
    ∀ (randomBytes : List Nat) (len : Int), randomBytes.length = 96 →
      (43 ≤ len ∧ len ≤ 128 →
        ∃ s, _generate_code_verifier randomBytes len = Except.ok s ∧
          (s.length : Int) = len ∧ ∀ c ∈ s.toList, isUrlSafeChar c = true)
      ∧ (¬(43 ≤ len ∧ len ≤ 128) →
        ∃ m, _generate_code_verifier randomBytes len = Except.error (PyErr.valueError m)) := by
  intro randomBytes len hlen
  constructor
  · intro hrange
    have henc : (base64urlEncode randomBytes).length = 128 :=
      base64urlEncode_length_of_three 32 randomBytes (by omega)
    refine ⟨String.mk ((token_urlsafe_96 randomBytes).take len.toNat), ?_, ?_, ?_⟩
    · unfold _generate_code_verifier
      rw [if_pos hrange]
    · have h1 : (String.mk ((token_urlsafe_96 randomBytes).take len.toNat)).length
          = ((base64urlEncode randomBytes).take len.toNat).length := rfl
      rw [h1, List.length_take, henc]
      omega
    · intro c hc
      have hc2 : c ∈ base64urlEncode randomBytes :=
        List.take_subset _ _ hc
      exact base64urlEncode_urlsafe randomBytes c hc2
  · intro hrange
    refine ⟨"Parameter `code_verifier_length` must validate"
        ++ "`43 <= code_verifier_length <= 128`.", ?_⟩
    unfold _generate_code_verifier
    rw [if_neg hrange]

/-- Witness for C9: at length 43 with 96 zero bytes the verifier has 43
URL-safe characters, and length 20 is rejected with `ValueError`. -/
theorem generate_code_verifier_spec_witness :
    (List.replicate 96 0).length = 96
    ∧ ((43 : Int) ≤ 43 ∧ (43 : Int) ≤ 128)
    ∧ (∃ s, _generate_code_verifier (List.replicate 96 0) 43 = Except.ok s ∧
        (s.length : Int) = 43 ∧ ∀ c ∈ s.toList, isUrlSafeChar c = true)
    ∧ (∃ m, _generate_code_verifier (List.replicate 96 0) 20
        = Except.error (PyErr.valueError m)) :=
  ⟨by decide, by decide,
   (generate_code_verifier_spec (List.replicate 96 0) 43 (by decide)).1 (by decide),
   (generate_code_verifier_spec (List.replicate 96 0) 20 (by decide)).2 (by decide)⟩

/-! ### Redaction behaviour -/

/-- Counterexample for C10 as universally stated: a non-sensitive entry
whose value is a list of non-mapping items is neither recursed into nor
kept unchanged — `redact_data` raises `TypeError`, because the list
comprehension feeds each item back through `redact_data` and `{**item}`
requires a mapping. -/
theorem redact_data_scalar_list_raises :
    redact_data [("a", PyVal.list [PyVal.int 1])] []
      = Except.error (PyErr.typeError "argument of type is not a mapping") := rfl

/-- What each entry of the redacted copy looks like, following the
(amended) claim: `None`/empty-string values are skipped, sensitive keys
are masked, mappings are recursed into, lists are recursed into
element-wise, all other values are kept. -/
def entrySpec (tr : List String) (e e' : String × PyVal) : Prop :=
  e'.1 = e.1 ∧
  ((isNone e.2 || isEmptyStr e.2) = true → e'.2 = e.2) ∧
  ((isNone e.2 || isEmptyStr e.2) = false → e.1 ∈ tr → e'.2 = PyVal.str REDACTED) ∧
  ((isNone e.2 || isEmptyStr e.2) = false → e.1 ∉ tr →
    (∀ sub, e.2 = PyVal.dict sub →
      ∃ sub', redact_data sub tr = Except.ok sub' ∧ e'.2 = PyVal.dict sub') ∧
    (∀ items, e.2 = PyVal.list items →
      ∃ items', redactItems items tr = Except.ok items' ∧ e'.2 = PyVal.list items') ∧
    (∀ s, e.2 = PyVal.str s → e'.2 = e.2) ∧
    (∀ n, e.2 = PyVal.int n → e'.2 = e.2) ∧
    (∀ b, e.2 = PyVal.bool b → e'.2 = e.2))

/-- A successful `redactEntry` satisfies the entry-level description. -/
theorem redactEntry_spec (tr : List String) (k : String) (v v' : PyVal)
    (h : redactEntry k v tr = Except.ok v') : entrySpec tr (k, v) (k, v') := by
  cases v with
  | none =>
      simp only [redactEntry, isNone, if_true] at h
      injection h with h1
      subst h1
      exact ⟨rfl, fun _ => rfl, fun hf => by simp [isNone] at hf,
             fun hf => by simp [isNone] at hf⟩
  | str s =>
      by_cases hs : s.isEmpty = true
      · simp only [redactEntry, isNone, isEmptyStr, Bool.false_eq_true, if_false,
                   hs, if_true] at h
        injection h with h1
        subst h1
        exact ⟨rfl, fun _ => rfl, fun hf => by simp [isNone, isEmptyStr, hs] at hf,
               fun hf => by simp [isNone, isEmptyStr, hs] at hf⟩
      · simp only [redactEntry, isNone, isEmptyStr, Bool.false_eq_true, if_false] at h
        rw [if_neg hs] at h
        by_cases hk : k ∈ tr
        · rw [if_pos hk] at h
          injection h with h1
          subst h1
          exact ⟨rfl, fun ht => by simp [isNone, isEmptyStr, hs] at ht,
                 fun _ _ => rfl, fun _ hk' => absurd hk hk'⟩
        · rw [if_neg hk] at h
          injection h with h1
          subst h1
          refine ⟨rfl, fun ht => rfl, fun _ hk' => absurd hk' hk, fun _ _ => ?_⟩
          exact ⟨fun sub hsub => (by cases hsub), fun items hitems => (by cases hitems),
                 fun s2 _ => rfl, fun n hn => (by cases hn), fun b hb => (by cases hb)⟩
  | int n =>
      simp only [redactEntry, isNone, isEmptyStr, Bool.false_eq_true, if_false] at h
      by_cases hk : k ∈ tr
      · rw [if_pos hk] at h
        injection h with h1
        subst h1
        exact ⟨rfl, fun ht => by simp [isNone, isEmptyStr] at ht,
               fun _ _ => rfl, fun _ hk' => absurd hk hk'⟩
      · rw [if_neg hk] at h
        injection h with h1
        subst h1
        refine ⟨rfl, fun ht => rfl, fun _ hk' => absurd hk' hk, fun _ _ => ?_⟩
        exact ⟨fun sub hsub => (by cases hsub), fun items hitems => (by cases hitems),
               fun s2 hs2 => (by cases hs2), fun n2 _ => rfl, fun b hb => (by cases hb)⟩
  | bool b =>
      simp only [redactEntry, isNone, isEmptyStr, Bool.false_eq_true, if_false] at h
      by_cases hk : k ∈ tr
      · rw [if_pos hk] at h
        injection h with h1
        subst h1
        exact ⟨rfl, fun ht => by simp [isNone, isEmptyStr] at ht,
               fun _ _ => rfl, fun _ hk' => absurd hk hk'⟩
      · rw [if_neg hk] at h
        injection h with h1
        subst h1
        refine ⟨rfl, fun ht => rfl, fun _ hk' => absurd hk' hk, fun _ _ => ?_⟩
        exact ⟨fun sub hsub => (by cases hsub), fun items hitems => (by cases hitems),
               fun s2 hs2 => (by cases hs2), fun n2 hn2 => (by cases hn2), fun b2 _ => rfl⟩
  | dict sub =>
      simp only [redactEntry, isNone, isEmptyStr, Bool.false_eq_true, if_false] at h
      by_cases hk : k ∈ tr
      · rw [if_pos hk] at h
        injection h with h1
        subst h1
        exact ⟨rfl, fun ht => by simp [isNone, isEmptyStr] at ht,
               fun _ _ => rfl, fun _ hk' => absurd hk hk'⟩
      · rw [if_neg hk] at h
        cases hr : redact_data sub tr with
        | error err => rw [hr] at h; simp [Bind.bind, Except.bind] at h
        | ok sub' =>
            rw [hr] at h
            simp only [Bind.bind, Except.bind] at h
            injection h with h1
            subst h1
            refine ⟨rfl, fun ht => by simp [isNone, isEmptyStr] at ht,
                    fun _ hk' => absurd hk' hk, fun _ _ => ?_⟩
            exact ⟨fun sub2 hsub2 => (by cases hsub2; exact ⟨sub', hr, rfl⟩),
                   fun items hitems => (by cases hitems),
                   fun s2 hs2 => (by cases hs2), fun n2 hn2 => (by cases hn2),
                   fun b2 hb2 => (by cases hb2)⟩
  | list items =>
      simp only [redactEntry, isNone, isEmptyStr, Bool.false_eq_true, if_false] at h
      by_cases hk : k ∈ tr
      · rw [if_pos hk] at h
        injection h with h1
        subst h1
        exact ⟨rfl, fun ht => by simp [isNone, isEmptyStr] at ht,
               fun _ _ => rfl, fun _ hk' => absurd hk hk'⟩
      · rw [if_neg hk] at h
        cases hr : redactItems items tr with
        | error err => rw [hr] at h; simp [Bind.bind, Except.bind] at h
        | ok items' =>
            rw [hr] at h
            simp only [Bind.bind, Except.bind] at h
            injection h with h1
            subst h1
            refine ⟨rfl, fun ht => by simp [isNone, isEmptyStr] at ht,
                    fun _ hk' => absurd hk' hk, fun _ _ => ?_⟩
            exact ⟨fun sub2 hsub2 => (by cases hsub2),
                   fun items2 hitems2 => (by cases hitems2; exact ⟨items', hr, rfl⟩),
                   fun s2 hs2 => (by cases hs2), fun n2 hn2 => (by cases hn2),
                   fun b2 hb2 => (by cases hb2)⟩

/-- A successful `redact_data` relates input and output entrywise. -/
theorem redact_data_forall₂ (tr : List String) :
    ∀ d d', redact_data d tr = Except.ok d' → List.Forall₂ (entrySpec tr) d d' := by
  intro d
  induction d with
  | nil =>
      intro d' h
      simp only [redact_data] at h
      injection h with h1
      subst h1
      exact List.Forall₂.nil
  | cons e rest ih =>
      intro d' h
      obtain ⟨k, v⟩ := e
      simp only [redact_data] at h
      cases he : redactEntry k v tr with
      | error err => rw [he] at h; simp [Bind.bind, Except.bind] at h
      | ok v' =>
          rw [he] at h
          simp only [Bind.bind, Except.bind] at h
          cases hr : redact_data rest tr with
          | error err => rw [hr] at h; simp at h
          | ok rest' =>
              rw [hr] at h
              simp only [] at h
              injection h with h1
              subst h1
              exact List.Forall₂.cons (redactEntry_spec tr k v v' he) (ih rest' hr)

/-- C10 amended: `redact_data` rewrites a copy entry by entry — an entry
whose value is `None` or the empty string is skipped (so a sensitive key
with such a value stays unredacted), a sensitive key with any other value
is masked with `**REDACTED**`, a non-sensitive mapping value is recursed
into, a non-sensitive list value is recursed into element-wise (raising
`TypeError` when an element is not a mapping), any other non-sensitive
value is kept, and keys with their order are preserved. The embedding is
pure, so the input mapping is never mutated. -/
theorem redact_data_behaviour :
    (∀ tr d d', redact_data d tr = Except.ok d' → List.Forall₂ (entrySpec tr) d d')
  ∧ (∀ tr d d', redact_data d tr = Except.ok d' → d'.map Prod.fst = d.map Prod.fst)
  ∧ redact_data [("token", PyVal.none)] ["token"] = Except.ok [("token", PyVal.none)]
  ∧ redact_data [("token", PyVal.str "")] ["token"] = Except.ok [("token", PyVal.str "")]
  ∧ redact_data [("token", PyVal.str "abc")] ["token"]
      = Except.ok [("token", PyVal.str REDACTED)]
  ∧ redact_data [("odometer", PyVal.int 500)] ["token"]
      = Except.ok [("odometer", PyVal.int 500)] := by
  refine ⟨redact_data_forall₂, fun tr d d' h => ?_, rfl, rfl, rfl, rfl⟩
  have hf := redact_data_forall₂ tr d d' h
  clear h
  induction hf with
  | nil => rfl
  | cons he _ ihm => simp [List.map_cons, he.1, ihm]

/-- Witness for C10 at a concrete input: a non-sensitive integer entry is
kept unchanged, entrywise. -/
theorem redact_data_behaviour_witness :
    redact_data [("a", PyVal.int 1)] [] = Except.ok [("a", PyVal.int 1)]
    ∧ List.Forall₂ (entrySpec []) [("a", PyVal.int 1)] [("a", PyVal.int 1)] :=
  ⟨rfl, redact_data_behaviour.1 [] [("a", PyVal.int 1)] [("a", PyVal.int 1)] rfl⟩

/-! ### Single-flight refresh under concurrency -/

/-- A task waiting on the provider's refresh reply. -/
def isRefreshing : TaskPhase → Bool
  | TaskPhase.refreshing _ => true
  | _ => false

/-- Positional lookup after updating the same position. -/
theorem get?_set_self {α : Type} (l : List α) (i : Nat) (q p : α)
    (h : l.get? i = some p) : (l.set i q).get? i = some q := by
  induction l generalizing i with
  | nil => simp [List.get?] at h
  | cons x xs ih =>
      cases i with
      | zero => rfl
      | succ n => exact ih n h

/-- Positional lookup after updating a different position. -/
theorem get?_set_other {α : Type} (l : List α) (i j : Nat) (q : α) (hne : i ≠ j) :
    (l.set i q).get? j = l.get? j := by
  induction l generalizing i j with
  | nil => simp [List.set]
  | cons x xs ih =>
      cases i with
      | zero =>
          cases j with
          | zero => exact absurd rfl hne
          | succ m => rfl
      | succ n =>
          cases j with
          | zero => rfl
          | succ m => exact ih n m (fun hc => hne (by rw [hc]))

/-- Positional lookup in a replicated list. -/
theorem get?_replicate_lt {α : Type} (a : α) (n i : Nat) (h : i < n) :
    (List.replicate n a).get? i = some a := by
  induction n generalizing i with
  | zero => omega
  | succ m ih =>
      cases i with
      | zero => rfl
      | succ k => exact ih k (by omega)

/-- The inductive invariant of the refresh scenario: `t₀` is the initial
(expired) token and `T` the token built from the reply to the first
refresh request. The lock admits at most one holder; at most one refresh
request is ever issued; while no request has been issued the old token is
in place and no task has finished; a task awaiting a reply is awaiting
reply 0 and the token is still old; once the one request is answered the
new token is in place; and every finished task got `T`'s access token. -/
def Inv (t₀ T : TokenResponse) (s : SysState) : Prop :=
  (s.lockHeld = false → ∀ i p, s.tasks.get? i = some p → holdsLock p = false) ∧
  (∀ i j pi pj, s.tasks.get? i = some pi → s.tasks.get? j = some pj →
      holdsLock pi = true → holdsLock pj = true → i = j) ∧
  s.requests ≤ 1 ∧
  (s.requests = 0 → s.attr = TokenAttr.set t₀ ∧
      ∀ i p, s.tasks.get? i = some p → isRefreshing p = false ∧ isDone p = false) ∧
  (∀ i idx, s.tasks.get? i = some (TaskPhase.refreshing idx) →
      idx = 0 ∧ s.requests = 1 ∧ s.attr = TokenAttr.set t₀) ∧
  (s.requests = 1 → (∀ i p, s.tasks.get? i = some p → isRefreshing p = false) →
      s.attr = TokenAttr.set T) ∧
  (∀ i r, s.tasks.get? i = some (TaskPhase.done r) → r = Except.ok T.access_token)

/-- The invariant holds initially. -/
theorem inv_initState (t₀ T : TokenResponse) (n : Nat) :
    Inv t₀ T (initState t₀ n) := by
  have hget : ∀ i p, (List.replicate n TaskPhase.ready).get? i = some p →
      p = TaskPhase.ready := by
    intro i p h
    have := List.get?_mem h
    exact (List.eq_of_mem_replicate this)
  refine ⟨?_, ?_, ?_, ?_, ?_, ?_, ?_⟩
  · intro _ i p h
    rw [hget i p h]
    rfl
  · intro i j pi pj hi hj hpi hpj
    rw [hget i pi hi] at hpi
    cases hpi
  · exact Nat.zero_le 1
  · intro _
    refine ⟨rfl, fun i p h => ?_⟩
    rw [hget i p h]
    exact ⟨rfl, rfl⟩
  · intro i idx h
    have := hget i _ h
    cases this
  · intro h
    cases h
  · intro i r h
    have := hget i _ h
    cases this

/-- One scheduler step preserves the invariant, provided the initial token
is expired, the first refresh request succeeds, and the token built from
its reply is valid. -/
theorem stepTask_preserves_inv
    (provider : Nat → HttpOutcome) (now : Int) (t₀ T : TokenResponse) (body₀ : PyDict)
    (hexp : t₀.expires_at ≤ now + _CLOCK_OUT_OF_SYNC_MAX_SEC)
    (hok : auth_async_request (provider 0) "token refresh" = Except.ok body₀)
    (hcr : _create_token_response now body₀ = Except.ok T)
    (hval : now + _CLOCK_OUT_OF_SYNC_MAX_SEC < T.expires_at)
    (s : SysState) (i : Nat) (hinv : Inv t₀ T s) :
    Inv t₀ T (stepTask provider now s i) := by
  obtain ⟨hm1, hm2, hr1, hz, href, hone, hdone⟩ := hinv
  unfold stepTask
  cases hg : s.tasks.get? i with
  | none => exact ⟨hm1, hm2, hr1, hz, href, hone, hdone⟩
  | some phase =>
    cases phase with
    | done r => exact ⟨hm1, hm2, hr1, hz, href, hone, hdone⟩
    | ready =>
        cases hl : s.lockHeld with
        | true => exact ⟨hm1, hm2, hr1, hz, href, hone, hdone⟩
        | false =>
            show Inv t₀ T ⟨s.attr, true, s.tasks.set i TaskPhase.hasLock, s.requests⟩
            refine ⟨?_, ?_, hr1, ?_, ?_, ?_, ?_⟩
            · intro hfalse _ _ _
              cases hfalse
            · intro a b pa pb ha hb hpa hpb
              by_cases hai : a = i
              · by_cases hbi : b = i
                · rw [hai, hbi]
                · rw [get?_set_other s.tasks i b _ (fun hc => hbi hc.symm)] at hb
                  have := hm1 hl b pb hb
                  rw [hpb] at this
                  cases this
              · rw [get?_set_other s.tasks i a _ (fun hc => hai hc.symm)] at ha
                have := hm1 hl a pa ha
                rw [hpa] at this
                cases this
            · intro h0
              obtain ⟨hattr, hnod⟩ := hz h0
              refine ⟨hattr, fun a p ha => ?_⟩
              by_cases hai : a = i
              · subst hai
                rw [get?_set_self s.tasks a _ _ hg] at ha
                injection ha with hpe
                rw [← hpe]
                exact ⟨rfl, rfl⟩
              · rw [get?_set_other s.tasks i a _ (fun hc => hai hc.symm)] at ha
                exact hnod a p ha
            · intro a idx ha
              by_cases hai : a = i
              · subst hai
                rw [get?_set_self s.tasks a _ _ hg] at ha
                cases ha
              · rw [get?_set_other s.tasks i a _ (fun hc => hai hc.symm)] at ha
                exact href a idx ha
            · intro h1 hnoref2
              apply hone h1
              intro a p ha
              by_cases hai : a = i
              · subst hai
                rw [hg] at ha
                injection ha with hpe
                rw [← hpe]
                rfl
              · refine hnoref2 a p ?_
                rw [get?_set_other s.tasks i a _ (fun hc => hai hc.symm)]
                exact ha
            · intro a r ha
              by_cases hai : a = i
              · subst hai
                rw [get?_set_self s.tasks a _ _ hg] at ha
                cases ha
              · rw [get?_set_other s.tasks i a _ (fun hc => hai hc.symm)] at ha
                exact hdone a r ha
    | hasLock =>
        have hlock : s.lockHeld = true := by
          cases hl : s.lockHeld with
          | false =>
              have := hm1 hl i _ hg
              rw [show holdsLock TaskPhase.hasLock = true from rfl] at this
              cases this
          | true => rfl
        have hnoref : ∀ j p, s.tasks.get? j = some p → isRefreshing p = false := by
          intro j p hj
          cases p with
          | refreshing idx =>
              have hji : j = i := hm2 j i _ _ hj hg rfl rfl
              rw [hji, hg] at hj
              cases hj
          | ready => rfl
          | hasLock => rfl
          | done r => rfl
        have hcases : s.requests = 0 ∨ s.requests = 1 := by omega
        rcases hcases with h0 | h1
        · obtain ⟨hattr, hnod⟩ := hz h0
          rw [hattr]
          have hd : decide (t₀.expires_at > now + _CLOCK_OUT_OF_SYNC_MAX_SEC) = false :=
            decide_eq_false (by omega)
          have hvt : valid_token (TokenAttr.set t₀) now
              = Except.ok (decide (t₀.expires_at > now + _CLOCK_OUT_OF_SYNC_MAX_SEC)) := rfl
          rw [hd] at hvt
          rw [hvt]
          show Inv t₀ T ⟨TokenAttr.set t₀, s.lockHeld,
            s.tasks.set i (TaskPhase.refreshing s.requests), s.requests + 1⟩
          refine ⟨?_, ?_, (show s.requests + 1 ≤ 1 by omega),
            (fun hq => absurd (show s.requests + 1 = 0 from hq) (by omega)), ?_, ?_, ?_⟩
          · intro hfalse
            rw [hlock] at hfalse
            cases hfalse
          · intro a b pa pb ha hb hpa hpb
            by_cases hai : a = i
            · by_cases hbi : b = i
              · rw [hai, hbi]
              · rw [get?_set_other s.tasks i b _ (fun hc => hbi hc.symm)] at hb
                exact absurd (hm2 b i pb _ hb hg hpb rfl) hbi
            · rw [get?_set_other s.tasks i a _ (fun hc => hai hc.symm)] at ha
              exact absurd (hm2 a i pa _ ha hg hpa rfl) hai
          · intro a idx ha
            by_cases hai : a = i
            · subst hai
              rw [get?_set_self s.tasks a _ _ hg] at ha
              injection ha with hpe
              injection hpe with hidx
              refine ⟨by omega, (show s.requests + 1 = 1 by omega), rfl⟩
            · rw [get?_set_other s.tasks i a _ (fun hc => hai hc.symm)] at ha
              have := (hnod a _ ha).1
              rw [show isRefreshing (TaskPhase.refreshing idx) = true from rfl] at this
              cases this
          · intro _ hnoref2
            have := hnoref2 i (TaskPhase.refreshing s.requests)
              (get?_set_self s.tasks i _ _ hg)
            rw [show isRefreshing (TaskPhase.refreshing s.requests) = true from rfl] at this
            cases this
          · intro a r ha
            by_cases hai : a = i
            · subst hai
              rw [get?_set_self s.tasks a _ _ hg] at ha
              cases ha
            · rw [get?_set_other s.tasks i a _ (fun hc => hai hc.symm)] at ha
              have := (hnod a _ ha).2
              rw [show isDone (TaskPhase.done r) = true from rfl] at this
              cases this
        · have hattrT : s.attr = TokenAttr.set T := hone h1 hnoref
          rw [hattrT]
          have hd : decide (T.expires_at > now + _CLOCK_OUT_OF_SYNC_MAX_SEC) = true :=
            decide_eq_true (by omega)
          have hvt : valid_token (TokenAttr.set T) now
              = Except.ok (decide (T.expires_at > now + _CLOCK_OUT_OF_SYNC_MAX_SEC)) := rfl
          rw [hd] at hvt
          rw [hvt]
          show Inv t₀ T ⟨TokenAttr.set T, false,
            s.tasks.set i (TaskPhase.done (Except.ok T.access_token)), s.requests⟩
          refine ⟨?_, ?_, hr1,
            (fun hq => absurd (show s.requests = 0 from hq) (by omega)), ?_, fun _ _ => rfl, ?_⟩
          · intro _ a p ha
            by_cases hai : a = i
            · subst hai
              rw [get?_set_self s.tasks a _ _ hg] at ha
              injection ha with hpe
              rw [← hpe]
              rfl
            · rw [get?_set_other s.tasks i a _ (fun hc => hai hc.symm)] at ha
              cases hp : holdsLock p with
              | false => rfl
              | true => exact absurd (hm2 a i p _ ha hg hp rfl) hai
          · intro a b pa pb ha hb hpa hpb
            by_cases hai : a = i
            · subst hai
              rw [get?_set_self s.tasks a _ _ hg] at ha
              injection ha with hpe
              rw [← hpe] at hpa
              cases hpa
            · rw [get?_set_other s.tasks i a _ (fun hc => hai hc.symm)] at ha
              exact absurd (hm2 a i pa _ ha hg hpa rfl) hai
          · intro a idx ha
            by_cases hai : a = i
            · subst hai
              rw [get?_set_self s.tasks a _ _ hg] at ha
              cases ha
            · rw [get?_set_other s.tasks i a _ (fun hc => hai hc.symm)] at ha
              have := hnoref a _ ha
              rw [show isRefreshing (TaskPhase.refreshing idx) = true from rfl] at this
              cases this
          · intro a r ha
            by_cases hai : a = i
            · subst hai
              rw [get?_set_self s.tasks a _ _ hg] at ha
              injection ha with hpe
              injection hpe with hre
              rw [← hre]
            · rw [get?_set_other s.tasks i a _ (fun hc => hai hc.symm)] at ha
              exact hdone a r ha
    | refreshing idx =>
        obtain ⟨hidx0, hreq1, hattr0⟩ := href i idx hg
        subst hidx0
        have hlock : s.lockHeld = true := by
          cases hl : s.lockHeld with
          | false =>
              have := hm1 hl i _ hg
              rw [show holdsLock (TaskPhase.refreshing 0) = true from rfl] at this
              cases this
          | true => rfl
        show Inv t₀ T
          (match auth_async_request (provider 0) "token refresh" with
           | Except.error e => ⟨s.attr, false,
               s.tasks.set i (TaskPhase.done (Except.error (RaisedErr.volvo e))), s.requests⟩
           | Except.ok body =>
               match _create_token_response now body with
               | Except.error e => ⟨s.attr, false,
                   s.tasks.set i (TaskPhase.done (Except.error (RaisedErr.py e))), s.requests⟩
               | Except.ok t => ⟨TokenAttr.set t, false,
                   s.tasks.set i (TaskPhase.done (Except.ok t.access_token)), s.requests⟩)
        rw [hok]
        show Inv t₀ T
          (match _create_token_response now body₀ with
           | Except.error e => ⟨s.attr, false,
               s.tasks.set i (TaskPhase.done (Except.error (RaisedErr.py e))), s.requests⟩
           | Except.ok t => ⟨TokenAttr.set t, false,
               s.tasks.set i (TaskPhase.done (Except.ok t.access_token)), s.requests⟩)
        rw [hcr]
        show Inv t₀ T ⟨TokenAttr.set T, false,
          s.tasks.set i (TaskPhase.done (Except.ok T.access_token)), s.requests⟩
        refine ⟨?_, ?_, hr1,
          (fun hq => absurd (show s.requests = 0 from hq) (by omega)), ?_, fun _ _ => rfl, ?_⟩
        · intro _ a p ha
          by_cases hai : a = i
          · subst hai
            rw [get?_set_self s.tasks a _ _ hg] at ha
            injection ha with hpe
            rw [← hpe]
            rfl
          · rw [get?_set_other s.tasks i a _ (fun hc => hai hc.symm)] at ha
            cases hp : holdsLock p with
            | false => rfl
            | true => exact absurd (hm2 a i p _ ha hg hp rfl) hai
        · intro a b pa pb ha hb hpa hpb
          by_cases hai : a = i
          · subst hai
            rw [get?_set_self s.tasks a _ _ hg] at ha
            injection ha with hpe
            rw [← hpe] at hpa
            cases hpa
          · rw [get?_set_other s.tasks i a _ (fun hc => hai hc.symm)] at ha
            exact absurd (hm2 a i pa _ ha hg hpa rfl) hai
        · intro a idx2 ha
          by_cases hai : a = i
          · subst hai
            rw [get?_set_self s.tasks a _ _ hg] at ha
            cases ha
          · rw [get?_set_other s.tasks i a _ (fun hc => hai hc.symm)] at ha
            exact absurd (hm2 a i _ _ ha hg rfl rfl) hai
        · intro a r ha
          by_cases hai : a = i
          · subst hai
            rw [get?_set_self s.tasks a _ _ hg] at ha
            injection ha with hpe
            injection hpe with hre
            rw [← hre]
          · rw [get?_set_other s.tasks i a _ (fun hc => hai hc.symm)] at ha
            exact hdone a r ha

/-- The invariant is preserved along any schedule. -/
theorem runSched_inv
    (provider : Nat → HttpOutcome) (now : Int) (t₀ T : TokenResponse) (body₀ : PyDict)
    (hexp : t₀.expires_at ≤ now + _CLOCK_OUT_OF_SYNC_MAX_SEC)
    (hok : auth_async_request (provider 0) "token refresh" = Except.ok body₀)
    (hcr : _create_token_response now body₀ = Except.ok T)
    (hval : now + _CLOCK_OUT_OF_SYNC_MAX_SEC < T.expires_at) :
    ∀ (sched : List Nat) (s : SysState), Inv t₀ T s →
      Inv t₀ T (runSched provider now s sched) := by
  intro sched
  induction sched with
  | nil => intro s h; exact h
  | cons i rest ih =>
      intro s h
      exact ih (stepTask provider now s i)
        (stepTask_preserves_inv provider now t₀ T body₀ hexp hok hcr hval s i h)

/-- A step never changes the number of tasks. -/
theorem stepTask_length (provider : Nat → HttpOutcome) (now : Int)
    (s : SysState) (i : Nat) :
    (stepTask provider now s i).tasks.length = s.tasks.length := by
  unfold stepTask
  repeat' split
  all_goals simp [List.length_set]

/-- A run never changes the number of tasks. -/
theorem runSched_length (provider : Nat → HttpOutcome) (now : Int) :
    ∀ (sched : List Nat) (s : SysState),
      (runSched provider now s sched).tasks.length = s.tasks.length := by
  intro sched
  induction sched with
  | nil => intro s; rfl
  | cons i rest ih =>
      intro s
      have h1 : runSched provider now s (i :: rest)
          = runSched provider now (stepTask provider now s i) rest := rfl
      rw [h1, ih, stepTask_length]

/-- C2 amended: when `n` concurrent callers invoke `async_get_access_token`
on one manager holding an expired token, the lock serializes the
check-and-refresh sequence; as long as the first refresh request succeeds
and produces a valid token, at most one refresh request is issued under
every schedule, every finished caller observes exactly that token's access
token, and on every schedule that finishes all callers (with at least one
caller) exactly one request was issued. A failing refresh instead leaves
each subsequent waiter to issue its own request — see the
counterexample. -/
theorem single_flight_refresh_success :
    ∀ (provider : Nat → HttpOutcome) (now : Int) (t₀ T : TokenResponse)
      (body₀ : PyDict) (n : Nat) (sched : List Nat),
      t₀.expires_at ≤ now + _CLOCK_OUT_OF_SYNC_MAX_SEC →
      auth_async_request (provider 0) "token refresh" = Except.ok body₀ →
      _create_token_response now body₀ = Except.ok T →
      now + _CLOCK_OUT_OF_SYNC_MAX_SEC < T.expires_at →
      (runSched provider now (initState t₀ n) sched).requests ≤ 1
      ∧ (∀ i r, (runSched provider now (initState t₀ n) sched).tasks.get? i
            = some (TaskPhase.done r) → r = Except.ok T.access_token)
      ∧ ((∀ i p, (runSched provider now (initState t₀ n) sched).tasks.get? i = some p →
            isDone p = true) → 1 ≤ n →
          (runSched provider now (initState t₀ n) sched).requests = 1) := by
  intro provider now t₀ T body₀ n sched hexp hok hcr hval
  have hlen : (runSched provider now (initState t₀ n) sched).tasks.length = n := by
    rw [runSched_length]
    simp [initState]
  have hinv := runSched_inv provider now t₀ T body₀ hexp hok hcr hval sched
    (initState t₀ n) (inv_initState t₀ T n)
  obtain ⟨hm1, hm2, hr1, hz, href, hone, hdone⟩ := hinv
  refine ⟨hr1, hdone, fun halldone hn => ?_⟩
  by_cases h0 : (runSched provider now (initState t₀ n) sched).requests = 0
  · exfalso
    obtain ⟨hattr, hnod⟩ := hz h0
    cases hg : (runSched provider now (initState t₀ n) sched).tasks.get? 0 with
    | none =>
        have := List.get?_eq_none.1 hg
        omega
    | some p =>
        have hd := halldone 0 p hg
        have hnd := (hnod 0 p hg).2
        rw [hd] at hnd
        cases hnd
  · omega

/-- The refresh-token response body returned by the sample provider. -/
def sampleBody : PyDict :=
  [("access_token", PyVal.str "tok2"), ("refresh_token", PyVal.str "ref2"),
   ("expires_in", PyVal.int 3600), ("token_type", PyVal.str "Bearer")]

/-- A provider that answers every refresh request successfully. -/
def sampleProvider : Nat → HttpOutcome := fun _ => HttpOutcome.success sampleBody

/-- The token `_create_token_response` builds from `sampleBody` at time 1000. -/
def sampleNewToken : TokenResponse :=
  { access_token := "tok2", refresh_token := "ref2", expires_in := 3600,
    expires_at := 4600, token_type := "Bearer", id_token := Option.none }

/-- Witness for the amended C2 at concrete inputs: two callers, expired
token, successful provider, a complete schedule. -/
theorem single_flight_refresh_success_witness :
    sampleToken.expires_at ≤ 1000 + _CLOCK_OUT_OF_SYNC_MAX_SEC
    ∧ auth_async_request (sampleProvider 0) "token refresh" = Except.ok sampleBody
    ∧ _create_token_response 1000 sampleBody = Except.ok sampleNewToken
    ∧ 1000 + _CLOCK_OUT_OF_SYNC_MAX_SEC < sampleNewToken.expires_at
    ∧ ((runSched sampleProvider 1000 (initState sampleToken 2) [0, 0, 0, 1, 1]).requests ≤ 1
       ∧ (∀ i r, (runSched sampleProvider 1000 (initState sampleToken 2)
              [0, 0, 0, 1, 1]).tasks.get? i = some (TaskPhase.done r) →
            r = Except.ok sampleNewToken.access_token)
       ∧ ((∀ i p, (runSched sampleProvider 1000 (initState sampleToken 2)
              [0, 0, 0, 1, 1]).tasks.get? i = some p → isDone p = true) → 1 ≤ 2 →
            (runSched sampleProvider 1000 (initState sampleToken 2)
              [0, 0, 0, 1, 1]).requests = 1)) :=
  ⟨by decide, rfl, rfl, by decide,
   single_flight_refresh_success sampleProvider 1000 sampleToken sampleNewToken
     sampleBody 2 [0, 0, 0, 1, 1] (by decide) rfl rfl (by decide)⟩

/-- A task finished with a `VolvoAuthException`. -/
def isDoneAuthErr : TaskPhase → Bool
  | TaskPhase.done (Except.error (RaisedErr.volvo (VolvoExc.volvoAuthException _ _))) => true
  | _ => false

/-- C2 counterexample: with two concurrent callers and a provider that
answers every refresh with HTTP 400, the schedule `[0,0,0,1,1,1]` drives
two refresh requests to the provider — the lock serializes them, but each
waiter re-checks and refreshes again after the first failure — and each
caller observes its own `VolvoAuthException`, refuting "exactly one
refresh request is issued and all N callers observe the same single
resulting new Token or the same single resulting error". -/
theorem concurrent_failed_refresh_two_requests :
    (runSched (fun _ => HttpOutcome.httpError 400 "Bad Request" []) 1000
        (initState sampleToken 2) [0, 0, 0, 1, 1, 1]).requests = 2
    ∧ (runSched (fun _ => HttpOutcome.httpError 400 "Bad Request" []) 1000
        (initState sampleToken 2) [0, 0, 0, 1, 1, 1]).tasks.all isDoneAuthErr = true
    ∧ valid_token (TokenAttr.set sampleToken) 1000 = Except.ok false :=
  ⟨rfl, rfl, rfl⟩

/-- Witness for C3's behaviour theorem at a concrete input. -/
theorem ensure_token_valid_unset_attribute_error_witness :
    async_ensure_token_valid TokenAttr.unset 0 HttpOutcome.timeoutError
      = (Except.error (RaisedErr.py (PyErr.attributeError "_token")), TokenAttr.unset) :=
  (ensure_token_valid_unset_attribute_error 0 HttpOutcome.timeoutError).1

/-- Witness for C4 at a concrete input: a successful refresh stores the
token built from the provider's one response. -/
theorem token_replacement_atomic_witness :
    async_refresh_token (TokenAttr.set sampleToken) 1000 (HttpOutcome.success sampleBody)
      = (Except.ok sampleNewToken, TokenAttr.set sampleNewToken)
    ∧ (match async_refresh_token (TokenAttr.set sampleToken) 1000
          (HttpOutcome.success sampleBody) with
       | (Except.ok t, attr') => attr' = TokenAttr.set t ∧
           ∃ body, auth_async_request (HttpOutcome.success sampleBody) "token refresh"
               = Except.ok body ∧
             _create_token_response 1000 body = Except.ok t
       | (Except.error _, attr') => attr' = TokenAttr.set sampleToken) :=
  ⟨rfl, (token_replacement_atomic (TokenAttr.set sampleToken) 1000
    (HttpOutcome.success sampleBody)).1⟩

/-- Witness for C6 at a concrete command URL and a concrete non-command
status check. -/
theorem command_422_soft_success_witness :
    urlHasCommands
      "https://api.volvocars.com/connected-vehicle/v2/vehicles/V/commands/lock" = true
    ∧ api_async_request
        "https://api.volvocars.com/connected-vehicle/v2/vehicles/V/commands/lock"
        "commands/lock" "V" (HttpOutcome.httpError 422 "Unprocessable" [])
        = Except.ok (synthetic422Body "V")
    ∧ ((422 : Nat) = 422 ∧ urlHasCommands
        "https://api.volvocars.com/connected-vehicle/v2/vehicles/V/commands/lock" = true) :=
  ⟨by decide,
   command_422_soft_success.1
     "https://api.volvocars.com/connected-vehicle/v2/vehicles/V/commands/lock"
     "commands/lock" "V" "Unprocessable" [] (by decide),
   command_422_soft_success.2.2
     "https://api.volvocars.com/connected-vehicle/v2/vehicles/V/commands/lock"
     "commands/lock" "V" 422 "Unprocessable" []
     (command_422_soft_success.1
       "https://api.volvocars.com/connected-vehicle/v2/vehicles/V/commands/lock"
       "commands/lock" "V" "Unprocessable" [] (by decide))⟩

end VolvoCars
